import Mathlib

/-!
Verification of the hgvc-finder repository against its specification.

The Python sources are shallowly embedded:
* Python floats become exact rationals, `None` becomes `Option.none`.
* Python truthiness (`not x`) is modelled per type by the `pyTruthy` helpers
  defined below (zero, the empty string and `None` are falsy).
* Character case folding is ASCII-only, matching the data the program handles.
* Fallible Python code (statements that can raise) is embedded in
  `Except String`.
-/

set_option maxHeartbeats 4000000
set_option maxRecDepth 10000

/-! ### ASCII character helpers -/

/-- ASCII lower-casing of a single character, the fragment of Python
`str.lower` exercised by the repository (all scraped names are ASCII). -/
def lowerChar (c : Char) : Char :=
  if h : 65 ≤ c.toNat ∧ c.toNat ≤ 90 then
    Char.ofNatAux (c.toNat + 32) (Or.inl (by omega))
  else c

/-- ASCII upper-casing of a single character (Python `str.upper`). -/
def upperChar (c : Char) : Char :=
  if h : 97 ≤ c.toNat ∧ c.toNat ≤ 122 then
    Char.ofNatAux (c.toNat - 32) (Or.inl (by omega))
  else c

/-- Python whitespace class `\s` over ASCII: space, tab, newline, carriage
return, vertical tab, form feed. -/
def isWs (c : Char) : Bool :=
  c == ' ' || c == '\t' || c == '\n' || c == '\r' || c == '\x0b' || c == '\x0c'

/-- Python word-character class `\w` over ASCII (letters, digits, underscore). -/
def isWordChar (c : Char) : Bool :=
  c.isAlpha || c.isDigit || c == '_'

/-- The dash characters collapsed by the normalizer. -/
def isDash (c : Char) : Bool :=
  c == '-' || c == '–' || c == '—'

/-- Lower-case every character of a string. -/
def lowerStr (s : String) : String :=
  ⟨s.data.map lowerChar⟩

/-! ### Python truthiness -/

/-- Python truthiness of an optional integer: `None` and `0` are falsy. -/
def pyTruthyInt : Option Int → Bool
  | none => false
  | some n => n != 0

/-- Python truthiness of an optional float (embedded as a rational):
`None` and `0.0` are falsy. -/
def pyTruthyRat : Option ℚ → Bool
  | none => false
  | some q => q != 0

/-- Python truthiness of an optional string: `None` and `""` are falsy. -/
def pyTruthyStr : Option String → Bool
  | none => false
  | some s => s != ""

/-! ### Constants from src/config.py -/

def CLOSING_COSTS : ℚ := 1100

def EOY_CLUB_DUES_ANNUAL : ℚ := 209

def GRADE_THRESHOLDS_excellent : ℚ := 0.10

def GRADE_THRESHOLDS_good : ℚ := 0.15

def GRADE_THRESHOLDS_fair : ℚ := 0.20

/-! ### Python `round` (banker's rounding, exact on rationals) -/

/-- Round to the nearest integer, ties to even, as Python `round` does. -/
def roundHalfEven (x : ℚ) : ℤ :=
  if x - ⌊x⌋ < 1/2 then ⌊x⌋
  else if 1/2 < x - ⌊x⌋ then ⌊x⌋ + 1
  else if ⌊x⌋ % 2 = 0 then ⌊x⌋ else ⌊x⌋ + 1

/-- Python `round(x, n)` on an exact rational. -/
def pyRound (n : ℕ) (x : ℚ) : ℚ :=
  (roundHalfEven (x * 10 ^ n) : ℚ) / 10 ^ n

/-! ### src/utils/calculator.py -/

/-- `usage and usage.upper().startswith('EOY')` from calculator.py: the usage
string is truthy and its ASCII upper-casing starts with `EOY`. -/
def eoyCond : Option String → Bool
  | none => false
  | some s => if s = "" then false else List.isPrefixOf "EOY".data (s.data.map upperChar)

/-- calculator.py `calculate_annual_points`: 0 for falsy points, floor-halved
for EOY usage, unchanged otherwise. -/
def calculate_annual_points (points : Option Int) (usage : Option String) : Int :=
  if pyTruthyInt points = false then 0
  else
    let p := points.getD 0
    if eoyCond usage then Int.fdiv p 2 else p

/-- calculator.py `calculate_mf_per_point`: `None` when the fee or the
annualized points are falsy, otherwise the exact quotient. -/
def calculate_mf_per_point (annual_mf : Option ℚ) (annual_points : Option Int) :
    Option ℚ :=
  if !pyTruthyRat annual_mf || !pyTruthyInt annual_points || annual_points == some 0 then
    none
  else some (annual_mf.getD 0 / ((annual_points.getD 0 : Int) : ℚ))

/-- calculator.py `calculate_10yr_cost`: `None` when price or fee is `None`;
EOY usage pays 5 fees plus 10 years of club dues, Annual pays 10 fees. -/
def calculate_10yr_cost (asking_price annual_mf : Option ℚ) (usage : Option String) :
    Option ℚ :=
  match asking_price, annual_mf with
  | some p, some f =>
    if eoyCond usage then
      some (p + CLOSING_COSTS + f * 5 + EOY_CLUB_DUES_ANNUAL * 10)
    else
      some (p + CLOSING_COSTS + f * 10)
  | _, _ => none

/-- calculator.py `get_deal_grade`. -/
def get_deal_grade : Option ℚ → String
  | none => "unknown"
  | some m =>
    if m ≤ GRADE_THRESHOLDS_excellent then "excellent"
    else if m ≤ GRADE_THRESHOLDS_good then "good"
    else if m ≤ GRADE_THRESHOLDS_fair then "fair"
    else "poor"

/-- calculator.py `get_grade_stars`. -/
def get_grade_stars (grade : String) : String :=
  if grade = "excellent" then "★★★"
  else if grade = "good" then "★★☆"
  else if grade = "fair" then "★☆☆"
  else if grade = "poor" then "☆☆☆"
  else "???"

/-- A listing dictionary as consumed by `calculate_deal_metrics`; a `none`
field stands for an absent or `None` entry (the two are indistinguishable to
the metric computation). -/
structure ListingInfo where
  points : Option Int
  usage : Option String
  asking_price : Option ℚ
  annual_mf : Option ℚ
deriving DecidableEq

/-- The metric dictionary produced by `calculate_deal_metrics` (display-only
entries that merely re-key `deal_grade` are omitted). -/
structure Metrics where
  annual_points : Int
  mf_per_point : Option ℚ
  total_10yr : Option ℚ
  deal_grade : String
  deal_grade_stars : String
deriving DecidableEq

/-- calculator.py line 164: `annual_mf = listing.get('annual_mf') or
mf_from_reference` — the listing fee when truthy, else the reference fee. -/
def effectiveMF (listing : ListingInfo) (mf_from_reference : Option ℚ) : Option ℚ :=
  match listing.annual_mf with
  | some f => if f = 0 then mf_from_reference else some f
  | none => mf_from_reference

/-- calculator.py `calculate_deal_metrics`: missing points and price coalesce
to 0 (`or 0`), missing usage defaults to Annual, the fee falls back to the
reference, and the outputs are rounded at the boundary with falsy values
mapped to `None`. -/
def calculate_deal_metrics (listing : ListingInfo) (mf_from_reference : Option ℚ) :
    Metrics :=
  let points : Int := listing.points.getD 0
  let usage : String := listing.usage.getD "Annual"
  let asking_price : ℚ := listing.asking_price.getD 0
  let annual_mf : Option ℚ := effectiveMF listing mf_from_reference
  let annual_points := calculate_annual_points (some points) (some usage)
  let mf_per_point := calculate_mf_per_point annual_mf (some annual_points)
  let total_10yr := calculate_10yr_cost (some asking_price) annual_mf (some usage)
  let grade := get_deal_grade mf_per_point
  { annual_points := annual_points
    mf_per_point :=
      match mf_per_point with
      | some q => if q = 0 then none else some (pyRound 4 q)
      | none => none
    total_10yr :=
      match total_10yr with
      | some q => if q = 0 then none else some (pyRound 2 q)
      | none => none
    deal_grade := grade
    deal_grade_stars := get_grade_stars grade }

/-- Spec-side condition of C7: the usage string starts with `EOY`,
case-insensitively (a missing usage starts with nothing). -/
def usageStartsWithEOY : Option String → Bool
  | none => false
  | some s => List.isPrefixOf "EOY".data (s.data.map upperChar)

/-! ### Substring containment (Python `in` on strings) -/

/-- Python `needle in haystack` on character lists: some suffix of the
haystack starts with the needle (the empty needle is contained everywhere). -/
def subIn (n : List Char) : List Char → Bool
  | [] => n.isEmpty
  | c :: cs => n.isPrefixOf (c :: cs) || subIn n cs

/-- Python `needle in haystack` on strings. -/
def subStr (n h : String) : Bool :=
  subIn n.data h.data

/-! ### src/utils/matching.py `extract_season` and the TUG scraper copy -/

/-- matching.py `extract_season`: first season keyword found in the lowercased
text wins; no keyword defaults to Platinum. -/
def extract_season (text : String) : String :=
  let tl := lowerStr text
  if subStr "platinum" tl then "Platinum"
  else if subStr "gold" tl then "Gold"
  else if subStr "silver" tl then "Silver"
  else if subStr "bronze" tl then "Bronze"
  else "Platinum"

namespace TUGScraper

/-- tug_scraper.py `_determine_season`: identical keyword cascade with the
same Platinum default. -/
def determine_season (text : String) : String :=
  let tl := lowerStr text
  if subStr "platinum" tl then "Platinum"
  else if subStr "gold" tl then "Gold"
  else if subStr "silver" tl then "Silver"
  else if subStr "bronze" tl then "Bronze"
  else "Platinum"

end TUGScraper

/-! ### src/utils/matching.py `normalize_resort_name`

The regex pipeline is embedded step by step on character lists.  Each
`re.sub` is an anchored or scanning matcher written out explicitly; greedy
matching needs no backtracking for these patterns except in the filler-word
alternation, where the alternatives are tried in the pattern's order. -/

/-- Case-insensitive literal matcher: consume the pattern (already lower
case) from the front of the input, returning the rest. -/
def matchLit : List Char → List Char → Option (List Char)
  | [], l => some l
  | _ :: _, [] => none
  | p :: ps, c :: cs => if lowerChar p == lowerChar c then matchLit ps cs else none

/-- matching.py line 56: `re.sub(r'^Hilton Grand Vacations?\s*(Club)?\s*', '', name, flags=re.I)`. -/
def step1 (l : List Char) : List Char :=
  match matchLit "hilton grand vacation".data l with
  | none => l
  | some r1 =>
    let r2 := match r1 with
      | c :: cs => if lowerChar c == 's' then cs else r1
      | [] => r1
    let r3 := r2.dropWhile isWs
    match matchLit "club".data r3 with
    | some r4 => r4.dropWhile isWs
    | none => r3

/-- matching.py line 57: `re.sub(r'^HGV(C)?\s*', '', name, flags=re.I)`. -/
def step2 (l : List Char) : List Char :=
  match matchLit "hgv".data l with
  | none => l
  | some r1 =>
    let r2 := match r1 with
      | c :: cs => if lowerChar c == 'c' then cs else r1
      | [] => r1
    r2.dropWhile isWs

/-- matching.py line 58: `re.sub(r'^The\s+', '', name, flags=re.I)`. -/
def step3 (l : List Char) : List Char :=
  match matchLit "the".data l with
  | none => l
  | some r =>
    match r with
    | c :: cs => if isWs c then cs.dropWhile isWs else l
    | [] => l

/-- One alternative of the filler-word pattern: literal match followed by the
trailing word-boundary check. -/
def tryOne (pat l : List Char) : Option (List Char) :=
  match matchLit pat l with
  | none => none
  | some r =>
    match r with
    | [] => some r
    | c :: _ => if isWordChar c then none else some r

/-- The alternation `(at the|on the|at|by)` with its trailing `\b\s*`:
alternatives in pattern order; returns whether the last consumed character is
a word character (for the scanner's boundary state) and the rest. -/
def tryAlt (l : List Char) : Option (Bool × List Char) :=
  match (((tryOne "at the".data l).orElse fun _ => tryOne "on the".data l).orElse
      fun _ => tryOne "at".data l).orElse fun _ => tryOne "by".data l with
  | none => none
  | some [] => some (true, [])
  | some (c :: cs) =>
    if isWs c then some (false, cs.dropWhile isWs) else some (true, c :: cs)

/-- matching.py line 61 scanner for `\b(at the|on the|at|by)\b\s*`, fuelled
by the input length (each step consumes at least one character).  The Bool
argument records whether the previous character was a word character, which
decides the leading `\b`. -/
def step4F : Nat → Bool → List Char → List Char
  | 0, _, l => l
  | _ + 1, _, [] => []
  | fuel + 1, prevW, c :: cs =>
    if prevW then c :: step4F fuel (isWordChar c) cs
    else
      match tryAlt (c :: cs) with
      | some (pw, rest) => step4F fuel pw rest
      | none => c :: step4F fuel (isWordChar c) cs

/-- matching.py line 61 applied to a whole string. -/
def step4run (l : List Char) : List Char :=
  step4F l.length false l

/-- matching.py line 64 scanner for `re.sub(r'\s*[-–—]\s*', ' ', name)`,
fuelled by the input length. -/
def step5F : Nat → List Char → List Char
  | 0, l => l
  | _ + 1, [] => []
  | fuel + 1, c :: cs =>
    match (c :: cs).dropWhile isWs with
    | d :: r =>
      if isDash d then ' ' :: step5F fuel (r.dropWhile isWs)
      else c :: step5F fuel cs
    | [] => c :: step5F fuel cs

/-- matching.py line 64 applied to a whole string. -/
def step5run (l : List Char) : List Char :=
  step5F l.length l

/-- Python `str.split()`: split on whitespace runs, discarding empties. -/
def splitWs : List Char → List (List Char)
  | [] => []
  | c :: cs =>
    if isWs c then splitWs cs
    else
      match cs with
      | [] => [[c]]
      | d :: _ =>
        if isWs d then [c] :: splitWs cs
        else
          match splitWs cs with
          | t :: ts => (c :: t) :: ts
          | [] => [[c]]

/-- Python `' '.join(tokens)`. -/
def joinSp : List (List Char) → List Char
  | [] => []
  | [t] => t
  | t :: ts => t ++ ' ' :: joinSp ts

/-- Python `str.strip()`: drop whitespace from both ends. -/
def pyStrip (l : List Char) : List Char :=
  ((l.dropWhile isWs).reverse.dropWhile isWs).reverse

/-- matching.py `normalize_resort_name` on character lists: empty input short
circuits (`if not name`), then prefix stripping, filler-word removal, dash
collapsing, whitespace collapsing, lower-casing and stripping, in the
source's order. -/
def normalizeL (l : List Char) : List Char :=
  if l.isEmpty then []
  else
    pyStrip ((joinSp (splitWs (step5run (step4run
      (step3 (step2 (step1 l))))))).map lowerChar)

/-- matching.py `normalize_resort_name`. -/
def normalize_resort_name (s : String) : String :=
  ⟨normalizeL s.data⟩

/-! ### src/utils/matching.py alias table and matcher -/

/-- matching.py `RESORT_ALIASES`, in source order. -/
def RESORT_ALIASES : List (String × List String) := [
  ("elara", ["elara", "elara grand", "elara by hilton"]),
  ("boulevard", ["on the boulevard", "boulevard", "las vegas boulevard"]),
  ("flamingo", ["at the flamingo", "flamingo"]),
  ("trump", ["trump international", "trump"]),
  ("paradise", ["paradise", "paradise las vegas"]),
  ("parc soleil", ["parc soleil", "parc soliel"]),
  ("seaworld", ["at seaworld", "seaworld", "sea world"]),
  ("tuscany village", ["tuscany village", "tuscany"]),
  ("ocean tower", ["ocean tower", "waikoloa ocean tower"]),
  ("bay club", ["bay club", "waikoloa bay club"]),
  ("kings land", ["kings land", "king\x27s land", "kingsland"]),
  ("grand islander", ["grand islander"]),
  ("lagoon tower", ["lagoon tower", "waikiki lagoon tower"]),
  ("kalia", ["kalia tower", "kalia suites"]),
  ("west 57th", ["west 57th", "west 57", "w 57th", "57th street"]),
  ("anderson ocean", ["anderson ocean", "ocean plaza"]),
  ("mcalpin", ["mcalpin", "mcalpin ocean plaza"]),
  ("marbrisa", ["marbrisa", "carlsbad"]),
  ("sunrise lodge", ["sunrise lodge", "park city"]),
  ("valdoro", ["valdoro", "breckenridge"]),
  ("craigendarroch", ["craigendarroch", "scotland"])]

/-- matching.py `get_canonical_name`: first canonical key one of whose
aliases occurs in the lowercased name. -/
def get_canonical_name (name : String) : Option String :=
  let nl := lowerStr name
  (RESORT_ALIASES.find? fun p => p.2.any fun a => subStr a nl).map fun p => p.1

/-! ### rapidfuzz `fuzz.token_sort_ratio` and `process.extract(..., limit=1)` -/

/-- Code-point lexicographic order on character lists (Python string `<`). -/
def lexLe : List Char → List Char → Bool
  | [], _ => true
  | _ :: _, [] => false
  | a :: ar, b :: br =>
    if a.toNat < b.toNat then true
    else if b.toNat < a.toNat then false
    else lexLe ar br

/-- Insertion into a lexicographically sorted token list. -/
def insTok (x : List Char) : List (List Char) → List (List Char)
  | [] => [x]
  | y :: ys => if lexLe x y then x :: y :: ys else y :: insTok x ys

/-- Insertion sort of tokens (Python `sorted`). -/
def sortToks : List (List Char) → List (List Char)
  | [] => []
  | x :: xs => insTok x (sortToks xs)

/-- The token_sort preprocessing: split, sort, rejoin with single spaces. -/
def tokenSortPrep (l : List Char) : List Char :=
  joinSp (sortToks (splitWs l))

/-- Longest common subsequence length, fuelled by the total length. -/
def lcsF : Nat → List Char → List Char → Nat
  | 0, _, _ => 0
  | _ + 1, [], _ => 0
  | _ + 1, _ :: _, [] => 0
  | fuel + 1, a :: ar, b :: br =>
    if a == b then lcsF fuel ar br + 1
    else max (lcsF fuel ar (b :: br)) (lcsF fuel (a :: ar) br)

/-- Longest common subsequence length. -/
def lcsLen (a b : List Char) : Nat :=
  lcsF (a.length + b.length) a b

/-- Normalized InDel similarity on a 0-100 scale, the semantics of rapidfuzz
`fuzz.ratio`: the InDel distance is `m + n - 2*lcs`, and the similarity is
`100 * (1 - dist/(m+n)) = 200*lcs/(m+n)`, with two empty strings scoring 100. -/
def indelSim (a b : List Char) : ℚ :=
  if a.length + b.length = 0 then 100
  else (200 * lcsLen a b : ℚ) / ((a.length : ℚ) + (b.length : ℚ))

/-- rapidfuzz `fuzz.token_sort_ratio` on two strings. -/
def tokenSortScore (a b : String) : ℚ :=
  indelSim (tokenSortPrep a.data) (tokenSortPrep b.data)

/-- Python dict insertion semantics: an existing key keeps its position but
takes the new value, a new key is appended. -/
def dictInsert (d : List (String × String)) (k v : String) : List (String × String) :=
  if d.any fun p => p.1 == k then
    d.map fun p => if p.1 == k then (k, v) else p
  else d ++ [(k, v)]

/-- matching.py line 129: `{normalize_resort_name(r): r for r in reference_resorts}`. -/
def buildNormDict (refs : List String) : List (String × String) :=
  refs.foldl (fun d r => dictInsert d (normalize_resort_name r) r) []

/-- Dict lookup (the key is always present where this is used). -/
def dictLookup (d : List (String × String)) (k : String) : String :=
  ((d.find? fun p => p.1 == k).map fun p => p.2).getD ""

/-- `process.extract(query, keys, scorer=token_sort_ratio, limit=1)`: the
first key attaining the maximal score, with its score. -/
def extractBest (q : String) (keys : List String) : Option (String × ℚ) :=
  keys.foldl (fun best k =>
    match best with
    | none => some (k, tokenSortScore q k)
    | some (bk, bs) =>
      if bs < tokenSortScore q k then some (k, tokenSortScore q k)
      else some (bk, bs)) none

/-- matching.py `match_resort_to_reference`: guard on empty inputs, then the
alias tier (score 100), the containment tier (score 95), and the fuzzy tier
gated by the threshold. -/
def match_resort_to_reference (listing_resort : String)
    (reference_resorts : List String) (threshold : Int := 75) :
    Option (String × ℚ) :=
  let normalized := normalize_resort_name listing_resort
  if normalized == "" || reference_resorts.isEmpty then none
  else
    match (match get_canonical_name normalized with
      | some canonical =>
        reference_resorts.find? fun ref =>
          let rn := normalize_resort_name ref
          subStr canonical rn || subStr rn canonical
      | none => none) with
    | some ref => some (ref, (100 : ℚ))
    | none =>
      match reference_resorts.find? (fun ref =>
          let rn := normalize_resort_name ref
          subStr normalized rn || subStr rn normalized) with
      | some ref => some (ref, (95 : ℚ))
      | none =>
        let normRefs := buildNormDict reference_resorts
        match extractBest normalized (normRefs.map Prod.fst) with
        | some best =>
          if (threshold : ℚ) ≤ best.2 then
            some (dictLookup normRefs best.1, best.2)
          else none
        | none => none

/-- Spec tier 1 of C6: an alias hit canonicalizes the listing name, and the
first reference whose normalized name contains the canonical key (or is
contained in it) matches at score 100. -/
def tier1Spec (listing_resort : String) (refs : List String) :
    Option (String × ℚ) :=
  let n := normalize_resort_name listing_resort
  match get_canonical_name n with
  | some canonical =>
    match refs.find? (fun ref =>
        let rn := normalize_resort_name ref
        subStr canonical rn || subStr rn canonical) with
    | some ref => some (ref, (100 : ℚ))
    | none => none
  | none => none

/-- Spec tier 2 of C6: substring containment in either direction between the
normalized listing name and a normalized reference name, score 95. -/
def tier2Spec (listing_resort : String) (refs : List String) :
    Option (String × ℚ) :=
  let n := normalize_resort_name listing_resort
  match refs.find? (fun ref =>
      let rn := normalize_resort_name ref
      subStr n rn || subStr rn n) with
  | some ref => some (ref, (95 : ℚ))
  | none => none

/-- Spec tier 3 of C6: the best fuzzy token-sort candidate, accepted only if
its score meets the threshold. -/
def tier3Spec (listing_resort : String) (refs : List String) (threshold : Int) :
    Option (String × ℚ) :=
  let n := normalize_resort_name listing_resort
  let normRefs := buildNormDict refs
  match extractBest n (normRefs.map Prod.fst) with
  | some best =>
    if (threshold : ℚ) ≤ best.2 then some (dictLookup normRefs best.1, best.2)
    else none
  | none => none

/-- The three-tier cascade as the spec describes it: each tier is tried only
if the previous one produced no match. -/
def cascadeSpec (listing_resort : String) (refs : List String)
    (threshold : Int) : Option (String × ℚ) :=
  match tier1Spec listing_resort refs with
  | some x => some x
  | none =>
    match tier2Spec listing_resort refs with
    | some x => some x
    | none => tier3Spec listing_resort refs threshold

/-! ### src/app/components/filters.py -/

/-- A row of the listings table as filtered by `apply_filters`; range-filtered
columns are nullable. -/
structure DFRow where
  season : Option String
  usage : Option String
  location : Option String
  source : String
  points : Option ℚ
  asking_price : Option ℚ
  mf_per_point : Option ℚ
deriving DecidableEq

/-- The filter dictionary produced by the sidebar (all keys present). -/
structure Filters where
  season : String
  usage : String
  locations : List String
  points_range : ℚ × ℚ
  price_range : ℚ × ℚ
  max_mf_per_point : ℚ
  sources : List (String × Bool)
deriving DecidableEq

/-- filters.py `apply_filters`: the sequential conditional filters of the
source, with pandas semantics — `str.contains(..., na=False)` and `isin`
drop null values, while the three range filters explicitly keep them. -/
def apply_filters (df : List DFRow) (fs : Filters) : List DFRow :=
  if df.isEmpty then df
  else
    let l1 := if fs.season = "Platinum만" then
        df.filter fun r =>
          match r.season with
          | none => false
          | some s => subStr "platinum" (lowerStr s)
      else df
    let l2 := if fs.usage = "Annual만" then
        l1.filter fun r => r.usage == some "Annual"
      else if fs.usage = "EOY 포함" then
        l1.filter fun r =>
          ["Annual", "EOY", "EOY-Even", "EOY-Odd"].any fun u => r.usage == some u
      else l1
    let l3 := if fs.locations.isEmpty then l2
      else l2.filter fun r => fs.locations.any fun loc => r.location == some loc
    let l4 := l3.filter fun r =>
      match r.points with
      | none => true
      | some q => decide (fs.points_range.1 ≤ q) && decide (q ≤ fs.points_range.2)
    let l5 := l4.filter fun r =>
      match r.asking_price with
      | none => true
      | some q => decide (fs.price_range.1 ≤ q) && decide (q ≤ fs.price_range.2)
    let l6 := l5.filter fun r =>
      match r.mf_per_point with
      | none => true
      | some q => decide (q ≤ fs.max_mf_per_point)
    let active := (fs.sources.filter fun p => p.2).map Prod.fst
    if active.isEmpty then l6
    else l6.filter fun r => active.contains r.source

/-! ### src/utils/database.py data model

SQLAlchemy sessions are embedded by explicit state passing: the committed
database is a value of type `DB`; work done in a session is a new `DB` value
that becomes committed at `session.commit()` and is discarded (the old value
kept) at `session.rollback()`. -/

/-- A persisted listing (the columns the claims are about). -/
structure ListingRow where
  source_id : String
  source : String
  asking_price : Option ℚ
  points : Option Int
deriving DecidableEq

/-- A pandas cell as seen by `import_mf_csv`: a number, a string, or null. -/
inductive Cell where
  | num (q : ℚ)
  | text (s : String)
  | null
deriving DecidableEq

/-- Python truthiness of a cell. -/
def Cell.truthy : Cell → Bool
  | num q => q != 0
  | text s => s != ""
  | null => false

/-- A persisted reference-fee row, with the fields `import_mf_csv` writes. -/
structure MFRow where
  resort_name : String
  resort_name_normalized : String
  unit_type : Cell
  season : Cell
  points : Int
  annual_mf : ℚ
  mf_per_point : ℚ
  year : Int
  source : String
deriving DecidableEq

/-- A scrape-log row (timestamps omitted — no real time in the embedding). -/
structure LogRow where
  source : String
  listings_found : Nat
  listings_new : Nat
  listings_updated : Nat
  status : String
  error_message : Option String
deriving DecidableEq

/-- The whole persistent store. -/
structure DB where
  listings : List ListingRow
  mf_refs : List MFRow
  logs : List LogRow
deriving DecidableEq

/-- The in-place update half of `upsert_listing`: the first row with the
payload's `source_id` takes all the payload's fields. -/
def updateFirst : List ListingRow → ListingRow → List ListingRow
  | [], _ => []
  | r :: rs, p =>
    if r.source_id = p.source_id then p :: rs else r :: updateFirst rs p

/-- database.py `upsert_listing`: query by `source_id` first; update the
existing row in place (reporting `is_new = false`) or append a new one
(reporting `is_new = true`). -/
def upsert_listing (rows : List ListingRow) (p : ListingRow) :
    List ListingRow × Bool :=
  match rows.find? fun r => r.source_id == p.source_id with
  | some _ => (updateFirst rows p, false)
  | none => (rows ++ [p], true)

/-- The scraping loop over `upsert_listing`, counting new and updated rows. -/
def upsertAll : List ListingRow → List ListingRow → List ListingRow × Nat × Nat
  | rows, [] => (rows, 0, 0)
  | rows, p :: ps =>
    let step := upsert_listing rows p
    let rest := upsertAll step.1 ps
    (rest.1, (if step.2 then rest.2.1 + 1 else rest.2.1),
      (if step.2 then rest.2.2 else rest.2.2 + 1))

/-- database.py `create_scrape_log`: adds a running log row and commits. -/
def create_scrape_log (db : DB) (source : String) : DB :=
  { db with logs := db.logs ++ [⟨source, 0, 0, 0, "running", none⟩] }

/-- Update the most recently created log row (the one this run created). -/
def updateLastLog : List LogRow → (LogRow → LogRow) → List LogRow
  | [], _ => []
  | [l], f => [f l]
  | l :: ls, f => l :: updateLastLog ls f

/-- database.py `complete_scrape_log`: finalize the run's log row with the
counts, status and error message, then commit. -/
def complete_scrape_log (db : DB) (found newC updC : Nat) (status : String)
    (error : Option String) : DB :=
  { db with logs := updateLastLog db.logs (fun l =>
      { l with
        listings_found := found
        listings_new := newC
        listings_updated := updC
        status := status
        error_message := error }) }

/-- What a scrape attempt does, from the orchestrator's point of view:
either the extraction itself raises, or it yields listings and the upsert
loop possibly raises while processing the listing at a given index. -/
inductive ScrapeOutcome where
  | extractErr (msg : String)
  | run (ls : List ListingRow) (failAt : Option (Nat × String))

/-- The result dictionary returned by `run_scraping`. -/
inductive RunOutcome where
  | ok (found newC updC : Nat)
  | err (msg : String)
deriving DecidableEq

/-- The success path of `run_scraping`: upsert all listings, commit, and
finalize the log as completed. -/
def runScrapeOk (db1 : DB) (ls : List ListingRow) : DB × RunOutcome :=
  let res := upsertAll db1.listings ls
  let db2 := { db1 with listings := res.1 }
  (complete_scrape_log db2 ls.length res.2.1 res.2.2 "completed" none,
    .ok ls.length res.2.1 res.2.2)

/-- data_management.py `run_scraping`: the log row is created and committed
up front; on success the loop's upserts are committed and the log finalized
as completed; on any exception `session.rollback()` discards the uncommitted
upserts and the log is finalized as failed with the message. -/
def run_scraping (db : DB) (source : String) (outcome : ScrapeOutcome) :
    DB × RunOutcome :=
  let db1 := create_scrape_log db source
  match outcome with
  | .extractErr msg =>
    (complete_scrape_log db1 0 0 0 "failed" (some msg), .err msg)
  | .run ls failAt =>
    match failAt with
    | some (k, msg) =>
      if k < ls.length then
        let _pending := upsertAll db1.listings (ls.take k)
        (complete_scrape_log db1 0 0 0 "failed" (some msg), .err msg)
      else runScrapeOk db1 ls
    | none => runScrapeOk db1 ls

/-! ### src/app/pages/3_data_management.py `import_mf_csv` -/

/-- Python `cell > 0` — raises a TypeError on non-numeric operands. -/
def pyGtZero : Cell → Except String Bool
  | Cell.num q => .ok (decide (0 < q))
  | Cell.text _ => .error "TypeError: comparison not supported between str and int"
  | Cell.null => .error "TypeError: comparison not supported between NoneType and int"

/-- Python `a / b` on cells. -/
def pyDivCell : Cell → Cell → Except String ℚ
  | Cell.num a, Cell.num b =>
    if b = 0 then .error "ZeroDivisionError: division by zero" else .ok (a / b)
  | _, _ => .error "TypeError: unsupported operand types for division"

/-- Python `float(cell)`; pandas already parses numeric CSV text to numbers,
so a text cell reaching `float` is non-numeric and raises. -/
def pyFloat : Cell → Except String ℚ
  | Cell.num q => .ok q
  | Cell.text _ => .error "ValueError: could not convert string to float"
  | Cell.null => .error "TypeError: float argument must be a number"

/-- Python `int(cell)` (truncation toward zero). -/
def pyInt : Cell → Except String Int
  | Cell.num q => .ok (if 0 ≤ q then ⌊q⌋ else -⌊-q⌋)
  | Cell.text _ => .error "ValueError: invalid literal for int"
  | Cell.null => .error "TypeError: int argument must be a number"

/-- One CSV row as a record of optionally present cells. -/
structure CsvRow where
  resort_name : Option Cell
  unit_type : Option Cell
  season : Option Cell
  points : Option Cell
  annual_mf : Option Cell
  year : Option Cell
deriving DecidableEq

/-- The body of the import loop for one row: skip rows with falsy
resort_name or annual_mf, otherwise evaluate exactly in the source's order —
the `points > 0` comparison, the fee division, `normalize_resort_name`
(which raises on non-string input), `int(points)`, `float(annual_mf)`,
`int(year)` — propagating the first raise. -/
def processCells (rn pts amf yr ut se : Cell) : Except String (Option MFRow) :=
  if rn.truthy = false || amf.truthy = false then .ok none
  else
    match pyGtZero pts with
    | .error e => .error e
    | .ok gt =>
      match (if gt then pyDivCell amf pts else .ok 0) with
      | .error e => .error e
      | .ok mpp =>
        match rn with
        | Cell.text s =>
          match (if pts.truthy then pyInt pts else .ok 0) with
          | .error e => .error e
          | .ok ptsInt =>
            match pyFloat amf with
            | .error e => .error e
            | .ok amfQ =>
              match pyInt yr with
              | .error e => .error e
              | .ok yrI =>
                .ok (some ⟨s, normalize_resort_name s, ut, se,
                  ptsInt, amfQ, mpp, yrI, "manual"⟩)
        | Cell.num _ => .error "TypeError: expected string or bytes-like object"
        | Cell.null => .error "TypeError: expected string or bytes-like object"

/-- The dictionary `.get` defaults of the loop body applied to one row. -/
def processRow (r : CsvRow) : Except String (Option MFRow) :=
  processCells (r.resort_name.getD (Cell.text "")) (r.points.getD (Cell.num 0))
    (r.annual_mf.getD (Cell.num 0)) (r.year.getD (Cell.num 2025))
    (r.unit_type.getD (Cell.text "")) (r.season.getD (Cell.text "Platinum"))

/-- The import loop: accumulate the rows to insert (into the cleared table)
or stop at the first raise. -/
def importGo : List CsvRow → List MFRow → Nat → Except String (List MFRow × Nat)
  | [], acc, count => .ok (acc, count)
  | r :: rs, acc, count =>
    match processRow r with
    | .error e => .error e
    | .ok none => importGo rs acc count
    | .ok (some m) => importGo rs (acc ++ [m]) (count + 1)

/-- data_management.py `import_mf_csv`: clear the reference table and insert
the parsed rows inside one session; `session.commit()` publishes the new
table, and on any raise `session.rollback()` leaves the store untouched and
the error string is returned in the result dictionary. -/
def import_mf_csv (db : DB) (rows : List CsvRow) : DB × Except String Nat :=
  match importGo rows [] 0 with
  | .error e => (db, .error e)
  | .ok res => ({ db with mf_refs := res.1 }, .ok res.2)

/-- The season stage of `apply_filters` as a row predicate: when the
Platinum-only filter is active, pandas `str.contains('Platinum', case=False,
na=False)` drops null seasons; otherwise every row passes. -/
def seasonKeep (fs : Filters) (r : DFRow) : Bool :=
  if fs.season = "Platinum만" then
    match r.season with
    | none => false
    | some s => subStr "platinum" (lowerStr s)
  else true

/-- The usage stage of `apply_filters` as a row predicate. -/
def usageKeep (fs : Filters) (r : DFRow) : Bool :=
  if fs.usage = "Annual만" then r.usage == some "Annual"
  else if fs.usage = "EOY 포함" then
    ["Annual", "EOY", "EOY-Even", "EOY-Odd"].any fun u => r.usage == some u
  else true

/-- The location stage of `apply_filters` as a row predicate. -/
def locationKeep (fs : Filters) (r : DFRow) : Bool :=
  if fs.locations.isEmpty then true
  else fs.locations.any fun loc => r.location == some loc

/-- The points-range stage of `apply_filters` as a row predicate: null
points always pass. -/
def pointsKeep (fs : Filters) (r : DFRow) : Bool :=
  match r.points with
  | none => true
  | some q => decide (fs.points_range.1 ≤ q) && decide (q ≤ fs.points_range.2)

/-- The price-range stage of `apply_filters` as a row predicate: null
prices always pass. -/
def priceKeep (fs : Filters) (r : DFRow) : Bool :=
  match r.asking_price with
  | none => true
  | some q => decide (fs.price_range.1 ≤ q) && decide (q ≤ fs.price_range.2)

/-- The fee-per-point stage of `apply_filters` as a row predicate: null
values always pass. -/
def mfKeep (fs : Filters) (r : DFRow) : Bool :=
  match r.mf_per_point with
  | none => true
  | some q => decide (q ≤ fs.max_mf_per_point)

/-- The source stage of `apply_filters` as a row predicate. -/
def sourceKeep (fs : Filters) (r : DFRow) : Bool :=
  let active := (fs.sources.filter fun p => p.2).map Prod.fst
  if active.isEmpty then true else active.contains r.source

/-! ## MARKER more definitions go above this line -/

/-! ## Theorems -/

theorem eoyCond_eq_spec (u : Option String) : eoyCond u = usageStartsWithEOY u := by
  cases u with
  | none => rfl
  | some s =>
    by_cases hs : s = ""
    · subst hs; rfl
    · simp [eoyCond, usageStartsWithEOY, hs]

/-- C7: `calculate_annual_points` returns 0 when points are null or 0;
otherwise it floor-halves the points when the usage starts with `EOY`
case-insensitively and returns them unchanged for any other usage. -/
theorem C7_calculate_annual_points (p : Int) (u : Option String) :
    calculate_annual_points none u = 0 ∧
    calculate_annual_points (some 0) u = 0 ∧
    (p ≠ 0 → usageStartsWithEOY u = true →
      calculate_annual_points (some p) u = Int.fdiv p 2) ∧
    (p ≠ 0 → usageStartsWithEOY u = false →
      calculate_annual_points (some p) u = p) := by
  refine ⟨rfl, rfl, ?_, ?_⟩ <;>
    intro hp hu <;>
    simp [calculate_annual_points, pyTruthyInt, hp, eoyCond_eq_spec, hu]

/-- C7 witness: 5000 EOY-odd points annualize to 2500. -/
theorem C7_witness :
    calculate_annual_points (some 5000) (some "eoy-odd") = 2500 := by
  have h := (C7_calculate_annual_points 5000 (some "eoy-odd")).2.2.1
    (by decide) (by decide)
  rw [h]
  decide

/-- C2 counterexample: a fee of exactly 0 (which is not null) together with
nonzero non-null points makes `calculate_mf_per_point` return `None`, although
the claim says the result is undefined exactly when the fee is null, the
points are null, or the points are 0. -/
theorem C2_counterexample :
    calculate_mf_per_point (some 0) (some 100) = none ∧
    some (0 : ℚ) ≠ (none : Option ℚ) ∧
    some (100 : Int) ≠ (none : Option Int) ∧
    (100 : Int) ≠ 0 := by
  decide

theorem calculate_mf_per_point_ne_zero (a : Option ℚ) (b : Option Int) (q : ℚ)
    (h : calculate_mf_per_point a b = some q) : q ≠ 0 := by
  cases a with
  | none => simp [calculate_mf_per_point, pyTruthyRat] at h
  | some f =>
    cases b with
    | none => simp [calculate_mf_per_point, pyTruthyRat, pyTruthyInt] at h
    | some p =>
      by_cases hf : f = 0
      · simp [calculate_mf_per_point, pyTruthyRat, hf] at h
      · by_cases hp : p = 0
        · simp [calculate_mf_per_point, pyTruthyRat, pyTruthyInt, hf, hp] at h
        · have hg : (!pyTruthyRat (some f) || !pyTruthyInt (some p) ||
              (some p == some (0:Int))) = false := by
            simp [pyTruthyRat, pyTruthyInt, hf, hp]
          unfold calculate_mf_per_point at h
          rw [hg] at h
          simp only [Bool.false_eq_true, if_false, Option.some.injEq,
            Option.getD_some] at h
          rw [← h]
          exact div_ne_zero hf (Int.cast_ne_zero.mpr hp)

/-- C2 amended: `calculate_mf_per_point` is undefined exactly when the fee is
null or 0, or the annualized points are null or 0; otherwise it is the exact
quotient, and `calculate_deal_metrics` surfaces it rounded to 4 decimal
places at the output boundary. -/
theorem C2_amended_mf_per_point (fee : Option ℚ) (pts : Option Int) :
    (calculate_mf_per_point fee pts = none ↔
      fee = none ∨ fee = some 0 ∨ pts = none ∨ pts = some 0) ∧
    (∀ f p, fee = some f → f ≠ 0 → pts = some p → p ≠ 0 →
      calculate_mf_per_point fee pts = some (f / ((p : Int) : ℚ))) ∧
    (∀ (l : ListingInfo) (r : Option ℚ),
      (calculate_deal_metrics l r).mf_per_point =
        Option.map (pyRound 4)
          (calculate_mf_per_point (effectiveMF l r)
            (some (calculate_annual_points (some (l.points.getD 0))
              (some (l.usage.getD "Annual")))))) := by
  refine ⟨?_, ?_, ?_⟩
  · cases fee with
    | none => simp [calculate_mf_per_point, pyTruthyRat]
    | some f =>
      cases pts with
      | none => simp [calculate_mf_per_point, pyTruthyRat, pyTruthyInt]
      | some p =>
        by_cases hf : f = 0 <;> by_cases hp : p = 0 <;>
          simp [calculate_mf_per_point, pyTruthyRat, pyTruthyInt, hf, hp]
  · intro f p hfe hf hpe hp
    subst hfe; subst hpe
    simp [calculate_mf_per_point, pyTruthyRat, pyTruthyInt, hf, hp]
  · intro l r
    show (match calculate_mf_per_point (effectiveMF l r)
        (some (calculate_annual_points (some (l.points.getD 0))
          (some (l.usage.getD "Annual")))) with
      | some q => if q = 0 then none else some (pyRound 4 q)
      | none => none) = _
    cases hm : calculate_mf_per_point (effectiveMF l r)
        (some (calculate_annual_points (some (l.points.getD 0))
          (some (l.usage.getD "Annual")))) with
    | none => rfl
    | some q =>
      have hq : q ≠ 0 := calculate_mf_per_point_ne_zero _ _ _ hm
      simp [hq]

/-- C2 witness: fee 1200 over 8000 annualized points is defined and equals
the exact quotient. -/
theorem C2_witness :
    calculate_mf_per_point (some 1200) (some 8000) =
      some ((1200 : ℚ) / ((8000 : Int) : ℚ)) :=
  (C2_amended_mf_per_point (some 1200) (some 8000)).2.1 1200 8000 rfl
    (by norm_num) rfl (by norm_num)

/-- C1 counterexample: a listing with no asking price but a fee of 800 gets a
defined 10-year total of 9100 (the missing price is coalesced to 0), although
the claim requires the total to be null whenever the price is missing. -/
theorem C1_counterexample :
    (⟨some 5000, some "Annual", none, some 800⟩ : ListingInfo).asking_price = none ∧
    (calculate_deal_metrics ⟨some 5000, some "Annual", none, some 800⟩ none).total_10yr
      = some 9100 := by
  refine ⟨rfl, ?_⟩
  have h0 : eoyCond (some "Annual") = false := by decide
  show (match calculate_10yr_cost (some ((0:ℚ))) (some 800) (some "Annual") with
    | some q => if q = 0 then none else some (pyRound 2 q)
    | none => none) = some 9100
  simp only [calculate_10yr_cost, h0, CLOSING_COSTS, if_false, Bool.false_eq_true]
  norm_num [pyRound, roundHalfEven]

/-- C1 amended: the 10-year total from `calculate_deal_metrics` is null
whenever the effective fee (own or reference) is missing; a present
nonnegative price with a positive fee yields the claimed formula (rounded to
2 decimals at the boundary: price + 1100 closing + fee*10 for Annual,
price + 1100 + fee*5 + 209*10 for EOY usage); a missing price does not make
the result null but is coalesced to 0 in the same formula. -/
theorem C1_amended_total_10yr (l : ListingInfo) (r : Option ℚ) :
    (effectiveMF l r = none → (calculate_deal_metrics l r).total_10yr = none) ∧
    (∀ p f, l.asking_price = some p → 0 ≤ p → effectiveMF l r = some f → 0 < f →
      (calculate_deal_metrics l r).total_10yr =
        some (pyRound 2 (if eoyCond (some (l.usage.getD "Annual")) = true
          then p + 1100 + f * 5 + 209 * 10 else p + 1100 + f * 10))) ∧
    (∀ f, l.asking_price = none → effectiveMF l r = some f → 0 < f →
      (calculate_deal_metrics l r).total_10yr =
        some (pyRound 2 (if eoyCond (some (l.usage.getD "Annual")) = true
          then 1100 + f * 5 + 209 * 10 else 1100 + f * 10))) := by
  refine ⟨?_, ?_, ?_⟩
  · intro hm
    show (match calculate_10yr_cost (some (l.asking_price.getD 0))
        (effectiveMF l r) (some (l.usage.getD "Annual")) with
      | some q => if q = 0 then none else some (pyRound 2 q)
      | none => none) = none
    rw [hm]
    rfl
  · intro p f hp hp0 hf hf0
    show (match calculate_10yr_cost (some (l.asking_price.getD 0))
        (effectiveMF l r) (some (l.usage.getD "Annual")) with
      | some q => if q = 0 then none else some (pyRound 2 q)
      | none => none) = _
    rw [hp, hf]
    simp only [Option.getD_some, calculate_10yr_cost, CLOSING_COSTS,
      EOY_CLUB_DUES_ANNUAL]
    by_cases he : eoyCond (some (l.usage.getD "Annual")) = true
    · rw [if_pos he, if_pos he]
      have hne : p + 1100 + f * 5 + 209 * 10 ≠ 0 := by nlinarith
      simp [hne]
    · rw [if_neg he, if_neg he]
      have hne : p + 1100 + f * 10 ≠ 0 := by nlinarith
      simp [hne]
  · intro f hp hf hf0
    show (match calculate_10yr_cost (some (l.asking_price.getD 0))
        (effectiveMF l r) (some (l.usage.getD "Annual")) with
      | some q => if q = 0 then none else some (pyRound 2 q)
      | none => none) = _
    rw [hp, hf]
    simp only [Option.getD_none, calculate_10yr_cost, CLOSING_COSTS,
      EOY_CLUB_DUES_ANNUAL]
    by_cases he : eoyCond (some (l.usage.getD "Annual")) = true
    · rw [if_pos he, if_pos he]
      have hne : (1100:ℚ) + f * 5 + 209 * 10 ≠ 0 := by nlinarith
      have harith : (0:ℚ) + 1100 + f * 5 + 209 * 10 = 1100 + f * 5 + 209 * 10 := by ring
      simp [harith, hne]
    · rw [if_neg he, if_neg he]
      have hne : (1100:ℚ) + f * 10 ≠ 0 := by nlinarith
      have harith : (0:ℚ) + 1100 + f * 10 = 1100 + f * 10 := by ring
      simp [harith, hne]

/-- C1 witness: the spec example — EOY usage, price 5000, fee 800 — has a
10-year total of 5000 + 1100 + 4000 + 2090 = 12190. -/
theorem C1_witness :
    (calculate_deal_metrics ⟨some 6000, some "EOY", some 5000, some 800⟩ none).total_10yr
      = some 12190 := by
  have h := (C1_amended_total_10yr ⟨some 6000, some "EOY", some 5000, some 800⟩ none).2.1
    5000 800 rfl (by norm_num) (by decide) (by norm_num)
  rw [h]
  have he : eoyCond (some ((⟨some 6000, some "EOY", some 5000, some 800⟩ :
      ListingInfo).usage.getD "Annual")) = true := by decide
  rw [if_pos he]
  norm_num [pyRound, roundHalfEven]

/-- C10: when the text contains none of the season keywords, both
`extract_season` and the TUG scraper's `determine_season` return the default
"Platinum" rather than a null or unknown marker. -/
theorem C10_season_default (text : String)
    (h1 : subStr "platinum" (lowerStr text) = false)
    (h2 : subStr "gold" (lowerStr text) = false)
    (h3 : subStr "silver" (lowerStr text) = false)
    (h4 : subStr "bronze" (lowerStr text) = false) :
    extract_season text = "Platinum" ∧
    TUGScraper.determine_season text = "Platinum" := by
  constructor <;>
    simp [extract_season, TUGScraper.determine_season, h1, h2, h3, h4]

/-- C10 witness: a listing description with no season keyword defaults to
Platinum in both functions. -/
theorem C10_witness :
    extract_season "2BR Annual 7000 points" = "Platinum" ∧
    TUGScraper.determine_season "2BR Annual 7000 points" = "Platinum" :=
  C10_season_default "2BR Annual 7000 points"
    (by decide) (by decide) (by decide) (by decide)

/-- C6 counterexample: for listing name "by" (which normalizes to the empty
string) and reference list ["elara"], tier 1 produces no match and the tier-2
containment condition holds (the empty string is contained in "elara"), so
the claim promises a score-95 match; the code's guard returns no match. -/
theorem C6_counterexample :
    match_resort_to_reference "by" ["elara"] 75 = none ∧
    tier1Spec "by" ["elara"] = none ∧
    tier2Spec "by" ["elara"] = some ("elara", 95) := by
  refine ⟨by decide, by decide, by decide⟩

/-- C6 amended: provided the normalized listing name is nonempty and the
reference list is nonempty (the code's guard), `match_resort_to_reference` is
exactly the spec's three-tier cascade: alias canonicalization at 100, else
substring containment at 95, else the best fuzzy token-sort candidate gated
by the threshold. -/
theorem C6_amended_cascade (lr : String) (refs : List String) (t : Int)
    (hn : normalize_resort_name lr ≠ "") (hr : refs ≠ []) :
    match_resort_to_reference lr refs t = cascadeSpec lr refs t := by
  have hre : refs.isEmpty = false := by
    cases refs with
    | nil => exact absurd rfl hr
    | cons a l => rfl
  have hnb : (normalize_resort_name lr == "") = false := by
    simpa using hn
  unfold match_resort_to_reference cascadeSpec tier1Spec tier2Spec tier3Spec
  simp only [hnb, hre, Bool.or_self, Bool.false_eq_true, if_false]
  cases hc : get_canonical_name (normalize_resort_name lr) with
  | none =>
    simp only []
    cases h2 : refs.find? (fun ref =>
        let rn := normalize_resort_name ref
        subStr (normalize_resort_name lr) rn ||
          subStr rn (normalize_resort_name lr)) with
    | none => rfl
    | some ref => rfl
  | some c =>
    simp only []
    cases h1 : refs.find? (fun ref =>
        let rn := normalize_resort_name ref
        subStr c rn || subStr rn c) with
    | none =>
      cases h2 : refs.find? (fun ref =>
          let rn := normalize_resort_name ref
          subStr (normalize_resort_name lr) rn ||
            subStr rn (normalize_resort_name lr)) with
      | none => rfl
      | some ref => rfl
    | some ref => rfl

/-- C6 witness: a listing that resolves through the alias tier matches the
cascade description. -/
theorem C6_witness :
    match_resort_to_reference "Elara Las Vegas" ["Elara"] 75 =
      cascadeSpec "Elara Las Vegas" ["Elara"] 75 :=
  C6_amended_cascade "Elara Las Vegas" ["Elara"] 75 (by decide) (by decide)

/-! ### Character-level lemmas for the normalizer -/

theorem toNat_lowerChar (c : Char) :
    (lowerChar c).toNat = if 65 ≤ c.toNat ∧ c.toNat ≤ 90 then c.toNat + 32 else c.toNat := by
  unfold lowerChar
  split <;> rfl

theorem lowerChar_eq_self (c : Char) (h : ¬(65 ≤ c.toNat ∧ c.toNat ≤ 90)) :
    lowerChar c = c := by
  unfold lowerChar
  rw [dif_neg h]

theorem isWs_false_of_ge (c : Char) (h : 33 ≤ c.toNat) : isWs c = false := by
  simp only [isWs, Bool.or_eq_false_iff, beq_eq_false_iff_ne, ne_eq]
  refine ⟨⟨⟨⟨⟨?_, ?_⟩, ?_⟩, ?_⟩, ?_⟩, ?_⟩ <;>
    (intro he; subst he; exact absurd h (by decide))

theorem isWs_lowerChar (c : Char) : isWs (lowerChar c) = isWs c := by
  by_cases h : 65 ≤ c.toNat ∧ c.toNat ≤ 90
  · have h1 : isWs (lowerChar c) = false := by
      apply isWs_false_of_ge
      rw [toNat_lowerChar, if_pos h]
      omega
    have h2 : isWs c = false := isWs_false_of_ge c (by omega)
    rw [h1, h2]
  · rw [lowerChar_eq_self c h]

theorem isDash_false_of_toNat (c : Char) (h1 : c.toNat ≠ 45)
    (h2 : c.toNat ≠ 8211) (h3 : c.toNat ≠ 8212) : isDash c = false := by
  simp only [isDash, Bool.or_eq_false_iff, beq_eq_false_iff_ne, ne_eq]
  refine ⟨⟨?_, ?_⟩, ?_⟩ <;> intro he <;> subst he
  · exact h1 (by decide)
  · exact h2 (by decide)
  · exact h3 (by decide)

theorem isDash_lowerChar (c : Char) : isDash (lowerChar c) = isDash c := by
  by_cases h : 65 ≤ c.toNat ∧ c.toNat ≤ 90
  · have ht : (lowerChar c).toNat = c.toNat + 32 := by rw [toNat_lowerChar, if_pos h]
    have h1 : isDash (lowerChar c) = false :=
      isDash_false_of_toNat _ (by omega) (by omega) (by omega)
    have h2 : isDash c = false :=
      isDash_false_of_toNat _ (by omega) (by omega) (by omega)
    rw [h1, h2]
  · rw [lowerChar_eq_self c h]

theorem lowerChar_idem (c : Char) : lowerChar (lowerChar c) = lowerChar c := by
  by_cases h : 65 ≤ c.toNat ∧ c.toNat ≤ 90
  · have ht : (lowerChar c).toNat = c.toNat + 32 := by rw [toNat_lowerChar, if_pos h]
    apply lowerChar_eq_self
    omega
  · rw [lowerChar_eq_self c h, lowerChar_eq_self c h]

theorem lowerChar_space : lowerChar ' ' = ' ' := by decide

theorem ws_not_dash (c : Char) (h : isWs c = true) : isDash c = false := by
  simp only [isWs, Bool.or_eq_true, beq_iff_eq] at h
  rcases h with ((((h | h) | h) | h) | h) | h <;> subst h <;> decide

/-! ### Equation lemmas for `splitWs` -/

theorem splitWs_cons (c : Char) (cs : List Char) :
    splitWs (c :: cs) =
      if isWs c then splitWs cs
      else
        match cs with
        | [] => [[c]]
        | d :: _ =>
          if isWs d then [c] :: splitWs cs
          else
            match splitWs cs with
            | t :: ts => (c :: t) :: ts
            | [] => [[c]] := rfl

theorem splitWs_ws (c : Char) (cs : List Char) (h : isWs c = true) :
    splitWs (c :: cs) = splitWs cs := by
  rw [splitWs_cons, if_pos h]

theorem splitWs_one (c : Char) (h : isWs c = false) : splitWs [c] = [[c]] := by
  rw [splitWs_cons, if_neg (by simp [h])]

theorem splitWs_nws_ws (c d : Char) (cs' : List Char)
    (h : isWs c = false) (hd : isWs d = true) :
    splitWs (c :: d :: cs') = [c] :: splitWs (d :: cs') := by
  rw [splitWs_cons, if_neg (by simp [h])]
  show (if isWs d then [c] :: splitWs (d :: cs')
    else match splitWs (d :: cs') with
      | t :: ts => (c :: t) :: ts
      | [] => [[c]]) = _
  rw [if_pos hd]

theorem splitWs_merge (c d : Char) (cs' : List Char) (t0 : List Char)
    (ts0 : List (List Char)) (h : isWs c = false) (hd : isWs d = false)
    (hsp : splitWs (d :: cs') = t0 :: ts0) :
    splitWs (c :: d :: cs') = (c :: t0) :: ts0 := by
  rw [splitWs_cons, if_neg (by simp [h])]
  show (if isWs d then [c] :: splitWs (d :: cs')
    else match splitWs (d :: cs') with
      | t :: ts => (c :: t) :: ts
      | [] => [[c]]) = _
  rw [if_neg (by simp [hd]), hsp]

theorem splitWs_ne_nil (d : Char) (cs' : List Char) (hd : isWs d = false) :
    splitWs (d :: cs') ≠ [] := by
  rw [splitWs_cons, if_neg (by simp [hd])]
  cases cs' with
  | nil => simp
  | cons e cs'' =>
    by_cases he : isWs e = true
    · show (if isWs e then [d] :: splitWs (e :: cs'')
        else match splitWs (e :: cs'') with
          | t :: ts => (d :: t) :: ts
          | [] => [[d]]) ≠ []
      rw [if_pos he]
      simp
    · show (if isWs e then [d] :: splitWs (e :: cs'')
        else match splitWs (e :: cs'') with
          | t :: ts => (d :: t) :: ts
          | [] => [[d]]) ≠ []
      rw [if_neg he]
      cases splitWs (e :: cs'') <;> simp

theorem splitWs_good : ∀ (l : List Char), ∀ t ∈ splitWs l,
    t ≠ [] ∧ ∀ c ∈ t, isWs c = false := by
  intro l
  induction l with
  | nil => intro t ht; simp [splitWs] at ht
  | cons c cs ih =>
    intro t ht
    cases hc : isWs c with
    | true =>
      rw [splitWs_ws c cs hc] at ht
      exact ih t ht
    | false =>
      cases cs with
      | nil =>
        rw [splitWs_one c hc] at ht
        simp only [List.mem_singleton] at ht
        subst ht
        refine ⟨by simp, ?_⟩
        intro x hx
        simp only [List.mem_singleton] at hx
        subst hx
        exact hc
      | cons d cs' =>
        cases hd : isWs d with
        | true =>
          rw [splitWs_nws_ws c d cs' hc hd] at ht
          rcases List.mem_cons.mp ht with h | h
          · subst h
            refine ⟨by simp, ?_⟩
            intro x hx
            simp only [List.mem_singleton] at hx
            subst hx
            exact hc
          · exact ih _ h
        | false =>
          cases hsp : splitWs (d :: cs') with
          | nil => exact absurd hsp (splitWs_ne_nil d cs' hd)
          | cons t0 ts0 =>
            rw [splitWs_merge c d cs' t0 ts0 hc hd hsp] at ht
            rcases List.mem_cons.mp ht with h | h
            · subst h
              refine ⟨by simp, ?_⟩
              intro x hx
              rcases List.mem_cons.mp hx with hx | hx
              · subst hx; exact hc
              · exact (ih t0 (hsp ▸ List.mem_cons_self t0 ts0)).2 x hx
            · exact ih t (hsp ▸ List.mem_cons_of_mem t0 h)

theorem splitWs_single : ∀ (t : List Char), t ≠ [] → (∀ c ∈ t, isWs c = false) →
    splitWs t = [t] := by
  intro t
  induction t with
  | nil => intro h; exact absurd rfl h
  | cons c cs ih =>
    intro _ hall
    have hc : isWs c = false := hall c (List.mem_cons_self c cs)
    cases cs with
    | nil => exact splitWs_one c hc
    | cons d cs' =>
      have hd : isWs d = false := hall d (by simp)
      have hrec : splitWs (d :: cs') = [d :: cs'] := by
        apply ih (by simp)
        intro x hx
        exact hall x (List.mem_cons_of_mem c hx)
      exact splitWs_merge c d cs' (d :: cs') [] hc hd hrec

theorem splitWs_append_tok : ∀ (t rest : List Char), t ≠ [] →
    (∀ c ∈ t, isWs c = false) →
    splitWs (t ++ ' ' :: rest) = t :: splitWs rest := by
  intro t
  induction t with
  | nil => intro rest h; exact absurd rfl h
  | cons c cs ih =>
    intro rest _ hall
    have hc : isWs c = false := hall c (List.mem_cons_self c cs)
    cases cs with
    | nil =>
      show splitWs (c :: ' ' :: rest) = [c] :: splitWs rest
      rw [splitWs_nws_ws c ' ' rest hc (by decide)]
      rw [splitWs_ws ' ' rest (by decide)]
    | cons d cs' =>
      have hd : isWs d = false := hall d (by simp)
      have hrec : splitWs ((d :: cs') ++ ' ' :: rest) = (d :: cs') :: splitWs rest := by
        apply ih rest (by simp)
        intro x hx
        exact hall x (List.mem_cons_of_mem c hx)
      show splitWs (c :: ((d :: cs') ++ ' ' :: rest)) = (c :: d :: cs') :: splitWs rest
      rw [List.cons_append] at hrec ⊢
      exact splitWs_merge c d (cs' ++ ' ' :: rest) (d :: cs') (splitWs rest) hc hd hrec

theorem joinSp_cons_cons (t t' : List Char) (ts : List (List Char)) :
    joinSp (t :: t' :: ts) = t ++ ' ' :: joinSp (t' :: ts) := rfl

theorem splitWs_joinSp : ∀ (ts : List (List Char)),
    (∀ t ∈ ts, t ≠ [] ∧ ∀ c ∈ t, isWs c = false) →
    splitWs (joinSp ts) = ts := by
  intro ts
  induction ts with
  | nil => intro _; rfl
  | cons t ts ih =>
    intro hgood
    cases ts with
    | nil =>
      show splitWs (joinSp [t]) = [t]
      have := hgood t (by simp)
      exact splitWs_single t this.1 this.2
    | cons t' ts' =>
      rw [joinSp_cons_cons]
      have ht := hgood t (by simp)
      rw [splitWs_append_tok t (joinSp (t' :: ts')) ht.1 ht.2]
      rw [ih fun u hu => hgood u (List.mem_cons_of_mem t hu)]

theorem mem_of_getLast?_my : ∀ (l : List Char) (c : Char), l.getLast? = some c → c ∈ l
  | [], c, h => by simp at h
  | [a], c, h => by
    rw [show ([a] : List Char).getLast? = some a from rfl] at h
    simp only [Option.some.injEq] at h
    simp [h]
  | a :: b :: l, c, h => by
    rw [List.getLast?_cons_cons] at h
    exact List.mem_cons_of_mem a (mem_of_getLast?_my (b :: l) c h)

theorem getLast?_append_cons : ∀ (xs : List Char) (y : Char) (ys : List Char),
    (xs ++ y :: ys).getLast? = (y :: ys).getLast?
  | [], _, _ => rfl
  | a :: xs, y, ys => by
    rw [List.cons_append]
    cases hxs : xs ++ y :: ys with
    | nil => simp at hxs
    | cons b l' =>
      rw [List.getLast?_cons_cons, ← hxs]
      exact getLast?_append_cons xs y ys

theorem joinSp_ne_nil : ∀ (ts : List (List Char)), (∀ t ∈ ts, t ≠ []) →
    ts ≠ [] → joinSp ts ≠ [] := by
  intro ts hgood hne
  cases ts with
  | nil => exact absurd rfl hne
  | cons t ts' =>
    cases ts' with
    | nil => exact hgood t (by simp)
    | cons t' ts'' =>
      rw [joinSp_cons_cons]
      simp

theorem joinSp_head_not_ws : ∀ (ts : List (List Char)),
    (∀ t ∈ ts, t ≠ [] ∧ ∀ c ∈ t, isWs c = false) →
    ∀ c, (joinSp ts).head? = some c → isWs c = false := by
  intro ts hgood c hc
  cases ts with
  | nil => simp [joinSp] at hc
  | cons t ts' =>
    have ht := hgood t (by simp)
    cases t with
    | nil => exact absurd rfl ht.1
    | cons a r =>
      cases ts' with
      | nil =>
        simp only [joinSp, List.head?_cons, Option.some.injEq] at hc
        subst hc
        exact ht.2 a (by simp)
      | cons t' ts'' =>
        rw [joinSp_cons_cons] at hc
        simp only [List.cons_append, List.head?_cons, Option.some.injEq] at hc
        subst hc
        exact ht.2 a (by simp)

theorem joinSp_getLast_not_ws : ∀ (ts : List (List Char)),
    (∀ t ∈ ts, t ≠ [] ∧ ∀ c ∈ t, isWs c = false) →
    ∀ c, (joinSp ts).getLast? = some c → isWs c = false := by
  intro ts
  induction ts with
  | nil => intro _ c hc; simp [joinSp] at hc
  | cons t ts' ih =>
    intro hgood c hc
    cases ts' with
    | nil =>
      have ht := hgood t (by simp)
      exact ht.2 c (mem_of_getLast?_my t c hc)
    | cons t' ts'' =>
      rw [joinSp_cons_cons, getLast?_append_cons] at hc
      have hne : joinSp (t' :: ts'') ≠ [] :=
        joinSp_ne_nil (t' :: ts'')
          (fun u hu => (hgood u (List.mem_cons_of_mem t hu)).1) (by simp)
      cases hj : joinSp (t' :: ts'') with
      | nil => exact absurd hj hne
      | cons j jr =>
        rw [hj, List.getLast?_cons_cons, ← hj] at hc
        exact ih (fun u hu => hgood u (List.mem_cons_of_mem t hu)) c hc

theorem dropWhile_eq_self_of_head (l : List Char)
    (h : ∀ c, l.head? = some c → isWs c = false) : l.dropWhile isWs = l := by
  cases l with
  | nil => rfl
  | cons c cs =>
    rw [List.dropWhile_cons]
    rw [h c rfl]
    simp

theorem pyStrip_id (l : List Char)
    (hh : ∀ c, l.head? = some c → isWs c = false)
    (hl : ∀ c, l.getLast? = some c → isWs c = false) : pyStrip l = l := by
  unfold pyStrip
  rw [dropWhile_eq_self_of_head l hh]
  rw [dropWhile_eq_self_of_head l.reverse
    (fun c hc => hl c (by rwa [List.head?_reverse] at hc))]
  exact List.reverse_reverse l

theorem map_lowerChar_joinSp : ∀ (ts : List (List Char)),
    (joinSp ts).map lowerChar = joinSp (ts.map (List.map lowerChar)) := by
  intro ts
  induction ts with
  | nil => rfl
  | cons t ts' ih =>
    cases ts' with
    | nil => rfl
    | cons t' ts'' =>
      rw [joinSp_cons_cons, List.map_append]
      rw [show (' ' :: joinSp (t' :: ts'')).map lowerChar =
        ' ' :: (joinSp (t' :: ts'')).map lowerChar by simp [lowerChar_space]]
      rw [ih]
      rfl

theorem goodToks_map_lower (ts : List (List Char))
    (h : ∀ t ∈ ts, t ≠ [] ∧ ∀ c ∈ t, isWs c = false) :
    ∀ t ∈ ts.map (List.map lowerChar), t ≠ [] ∧ ∀ c ∈ t, isWs c = false := by
  intro t ht
  rcases List.mem_map.mp ht with ⟨t0, ht0, rfl⟩
  refine ⟨by simpa using (h t0 ht0).1, ?_⟩
  intro c hc
  rcases List.mem_map.mp hc with ⟨c0, hc0, rfl⟩
  rw [isWs_lowerChar]
  exact (h t0 ht0).2 c0 hc0

/-! ### Dash-elimination lemmas for step 5 -/

theorem dropWhile_mem (l : List Char) (c : Char) (h : c ∈ l.dropWhile isWs) :
    c ∈ l := (List.dropWhile_sublist isWs).subset h

theorem step5F_cons (fuel : Nat) (a : Char) (cs : List Char) :
    step5F (fuel + 1) (a :: cs) =
      match (a :: cs).dropWhile isWs with
      | d :: r =>
        if isDash d then ' ' :: step5F fuel (r.dropWhile isWs)
        else a :: step5F fuel cs
      | [] => a :: step5F fuel cs := rfl

theorem dropWhile_nil_head_ws (a : Char) (cs : List Char)
    (h : (a :: cs).dropWhile isWs = []) : isWs a = true := by
  by_contra hws
  rw [List.dropWhile_cons] at h
  simp only [Bool.not_eq_true] at hws
  rw [hws] at h
  simp at h

theorem dropWhile_cons_head (a : Char) (cs : List Char) (d : Char) (r : List Char)
    (hdw : (a :: cs).dropWhile isWs = d :: r) (hws : isWs a = false) :
    d = a ∧ r = cs := by
  rw [List.dropWhile_cons, hws] at hdw
  simp only [Bool.false_eq_true, if_false, List.cons.injEq] at hdw
  exact ⟨hdw.1.symm, hdw.2.symm⟩

theorem dropWhile_len (l : List Char) : (l.dropWhile isWs).length ≤ l.length :=
  (List.dropWhile_sublist isWs).length_le

theorem step5F_eq_nil (fuel : Nat) (a : Char) (cs : List Char)
    (hdw : (a :: cs).dropWhile isWs = []) :
    step5F (fuel + 1) (a :: cs) = a :: step5F fuel cs := by
  rw [step5F_cons, hdw]

theorem step5F_eq_dash (fuel : Nat) (a : Char) (cs : List Char) (d : Char)
    (r : List Char) (hdw : (a :: cs).dropWhile isWs = d :: r)
    (hd : isDash d = true) :
    step5F (fuel + 1) (a :: cs) = ' ' :: step5F fuel (r.dropWhile isWs) := by
  rw [step5F_cons, hdw]
  show (if isDash d then ' ' :: step5F fuel (r.dropWhile isWs)
    else a :: step5F fuel cs) = _
  rw [if_pos hd]

theorem step5F_eq_keep (fuel : Nat) (a : Char) (cs : List Char) (d : Char)
    (r : List Char) (hdw : (a :: cs).dropWhile isWs = d :: r)
    (hd : isDash d = false) :
    step5F (fuel + 1) (a :: cs) = a :: step5F fuel cs := by
  rw [step5F_cons, hdw]
  show (if isDash d then ' ' :: step5F fuel (r.dropWhile isWs)
    else a :: step5F fuel cs) = _
  rw [if_neg (by simp [hd])]

theorem step5F_noDash : ∀ (fuel : Nat) (l : List Char), l.length ≤ fuel →
    ∀ c ∈ step5F fuel l, isDash c = false := by
  intro fuel
  induction fuel with
  | zero =>
    intro l hl c hc
    rw [Nat.le_zero, List.length_eq_zero] at hl
    subst hl
    simp [step5F] at hc
  | succ fuel ih =>
    intro l hl c hc
    cases l with
    | nil => simp [step5F] at hc
    | cons a cs =>
      have hcs : cs.length ≤ fuel := by
        simp only [List.length_cons] at hl
        omega
      cases hdw : (a :: cs).dropWhile isWs with
      | nil =>
        rw [step5F_eq_nil fuel a cs hdw] at hc
        rcases List.mem_cons.mp hc with h | h
        · subst h
          exact ws_not_dash c (dropWhile_nil_head_ws c cs hdw)
        · exact ih cs hcs c h
      | cons d r =>
        cases hd : isDash d with
        | true =>
          rw [step5F_eq_dash fuel a cs d r hdw hd] at hc
          rcases List.mem_cons.mp hc with h | h
          · subst h; decide
          · have hlen : (r.dropWhile isWs).length ≤ fuel := by
              have h1 : (r.dropWhile isWs).length ≤ r.length := dropWhile_len r
              have h2 : (d :: r).length ≤ (a :: cs).length := by
                rw [← hdw]; exact dropWhile_len (a :: cs)
              simp only [List.length_cons] at h2 hl
              omega
            exact ih (r.dropWhile isWs) hlen c h
        | false =>
          rw [step5F_eq_keep fuel a cs d r hdw hd] at hc
          rcases List.mem_cons.mp hc with h | h
          · subst h
            cases hws : isWs c with
            | true => exact ws_not_dash c hws
            | false =>
              rcases dropWhile_cons_head c cs d r hdw hws with ⟨hda, _⟩
              rw [← hd, hda]
          · exact ih cs hcs c h

theorem step5F_fix : ∀ (fuel : Nat) (l : List Char), l.length ≤ fuel →
    (∀ c ∈ l, isDash c = false) → step5F fuel l = l := by
  intro fuel
  induction fuel with
  | zero =>
    intro l hl _
    rw [Nat.le_zero, List.length_eq_zero] at hl
    subst hl
    rfl
  | succ fuel ih =>
    intro l hl hnd
    cases l with
    | nil => rfl
    | cons a cs =>
      have hcs : cs.length ≤ fuel := by
        simp only [List.length_cons] at hl
        omega
      have hrec : step5F fuel cs = cs :=
        ih cs hcs fun c hc => hnd c (List.mem_cons_of_mem a hc)
      cases hdw : (a :: cs).dropWhile isWs with
      | nil => rw [step5F_eq_nil fuel a cs hdw, hrec]
      | cons d r =>
        have hd : isDash d = false :=
          hnd d (dropWhile_mem (a :: cs) d (hdw ▸ List.mem_cons_self d r))
        rw [step5F_eq_keep fuel a cs d r hdw hd, hrec]

theorem mem_joinSp : ∀ (ts : List (List Char)) (c : Char), c ∈ joinSp ts →
    c = ' ' ∨ ∃ t, t ∈ ts ∧ c ∈ t := by
  intro ts
  induction ts with
  | nil => intro c hc; simp [joinSp] at hc
  | cons t ts' ih =>
    intro c hc
    cases ts' with
    | nil => exact Or.inr ⟨t, by simp, hc⟩
    | cons t' ts'' =>
      rw [joinSp_cons_cons] at hc
      rcases List.mem_append.mp hc with h | h
      · exact Or.inr ⟨t, by simp, h⟩
      · rcases List.mem_cons.mp h with h | h
        · exact Or.inl h
        · rcases ih c h with h | ⟨u, hu, hcu⟩
          · exact Or.inl h
          · exact Or.inr ⟨u, List.mem_cons_of_mem t hu, hcu⟩

theorem mem_splitWs : ∀ (l : List Char) (t : List Char), t ∈ splitWs l →
    ∀ c ∈ t, c ∈ l := by
  intro l
  induction l with
  | nil => intro t ht; simp [splitWs] at ht
  | cons a cs ih =>
    intro t ht c hc
    cases ha : isWs a with
    | true =>
      rw [splitWs_ws a cs ha] at ht
      exact List.mem_cons_of_mem a (ih t ht c hc)
    | false =>
      cases cs with
      | nil =>
        rw [splitWs_one a ha] at ht
        simp only [List.mem_singleton] at ht
        subst ht
        simpa using hc
      | cons d cs' =>
        cases hd : isWs d with
        | true =>
          rw [splitWs_nws_ws a d cs' ha hd] at ht
          rcases List.mem_cons.mp ht with h | h
          · subst h
            simp only [List.mem_singleton] at hc
            subst hc
            exact List.mem_cons_self c _
          · exact List.mem_cons_of_mem a (ih t h c hc)
        | false =>
          cases hsp : splitWs (d :: cs') with
          | nil => exact absurd hsp (splitWs_ne_nil d cs' hd)
          | cons t0 ts0 =>
            rw [splitWs_merge a d cs' t0 ts0 ha hd hsp] at ht
            rcases List.mem_cons.mp ht with h | h
            · subst h
              rcases List.mem_cons.mp hc with h | h
              · subst h; simp
              · exact List.mem_cons_of_mem a
                  (ih t0 (hsp ▸ List.mem_cons_self t0 ts0) c h)
            · exact List.mem_cons_of_mem a
                (ih t (hsp ▸ List.mem_cons_of_mem t0 h) c hc)

theorem mem_pyStrip (l : List Char) (c : Char) (h : c ∈ pyStrip l) : c ∈ l := by
  unfold pyStrip at h
  rw [List.mem_reverse] at h
  have h1 := (List.dropWhile_sublist isWs).subset h
  rw [List.mem_reverse] at h1
  exact (List.dropWhile_sublist isWs).subset h1

theorem normalizeL_eq_of_ne (l : List Char) (h : l.isEmpty = false) :
    normalizeL l =
      pyStrip ((joinSp (splitWs (step5run (step4run
        (step3 (step2 (step1 l))))))).map lowerChar) := by
  unfold normalizeL
  rw [h]
  simp

theorem step5run_fix (l : List Char) (h : ∀ c ∈ l, isDash c = false) :
    step5run l = l :=
  step5F_fix l.length l (le_refl _) h

theorem normalizeL_noDash (l : List Char) : ∀ c ∈ normalizeL l, isDash c = false := by
  intro c hc
  cases hl : l.isEmpty with
  | true =>
    unfold normalizeL at hc
    rw [hl] at hc
    simp at hc
  | false =>
    rw [normalizeL_eq_of_ne l hl] at hc
    have h1 := mem_pyStrip _ c hc
    rcases List.mem_map.mp h1 with ⟨c0, hc0, rfl⟩
    rw [isDash_lowerChar]
    rcases mem_joinSp _ c0 hc0 with h | ⟨t, ht, hct⟩
    · subst h; decide
    · have h2 := mem_splitWs _ t ht c0 hct
      exact step5F_noDash _ _ (le_refl _) c0 h2

theorem normalizeL_canon (l : List Char) :
    joinSp (splitWs (normalizeL l)) = normalizeL l ∧
    (normalizeL l).map lowerChar = normalizeL l ∧
    pyStrip (normalizeL l) = normalizeL l := by
  cases hl : l.isEmpty with
  | true =>
    have he : normalizeL l = [] := by
      unfold normalizeL
      rw [hl]
      simp
    rw [he]
    exact ⟨rfl, rfl, rfl⟩
  | false =>
    rw [normalizeL_eq_of_ne l hl]
    have hgood := splitWs_good (step5run (step4run (step3 (step2 (step1 l)))))
    have hgood' := goodToks_map_lower _ hgood
    have hcomm := map_lowerChar_joinSp (splitWs (step5run (step4run
      (step3 (step2 (step1 l))))))
    have hstrip := pyStrip_id _ (joinSp_head_not_ws _ hgood')
      (joinSp_getLast_not_ws _ hgood')
    rw [hcomm, hstrip]
    refine ⟨?_, ?_, hstrip⟩
    · rw [splitWs_joinSp _ hgood']
    · rw [map_lowerChar_joinSp]
      congr 1
      rw [List.map_map]
      rw [show List.map lowerChar ∘ List.map lowerChar = List.map lowerChar from
        funext fun t => by
          simp only [Function.comp_apply, List.map_map]
          rw [show lowerChar ∘ lowerChar = lowerChar from funext lowerChar_idem]]

/-- C5 counterexample: normalization is not idempotent — "The HGVC Elara"
normalizes to "hgvc elara" (the `The` prefix is stripped first, so the `HGVC`
prefix survives), and normalizing again strips `hgvc`, giving "elara". -/
theorem C5_counterexample :
    normalize_resort_name "The HGVC Elara" = "hgvc elara" ∧
    normalize_resort_name (normalize_resort_name "The HGVC Elara") = "elara" ∧
    normalize_resort_name (normalize_resort_name "The HGVC Elara") ≠
      normalize_resort_name "The HGVC Elara" := by
  refine ⟨by decide, by decide, by decide⟩

/-- C5 amended: normalization is idempotent for every input whose normalized
form is a fixed point of the prefix- and filler-word-stripping steps (the
anchored brand-prefix rules and the `at/by/at the/on the` filler rule); on
such names the remaining cleanup (dash collapsing, whitespace collapsing,
lower-casing, stripping) is always a fixed point of a second pass.  In
general idempotence fails because a later prefix rule can expose an earlier
one for the second pass. -/
theorem C5_amended_idempotent (x : String)
    (h1 : step1 (normalize_resort_name x).data = (normalize_resort_name x).data)
    (h2 : step2 (normalize_resort_name x).data = (normalize_resort_name x).data)
    (h3 : step3 (normalize_resort_name x).data = (normalize_resort_name x).data)
    (h4 : step4run (normalize_resort_name x).data = (normalize_resort_name x).data) :
    normalize_resort_name (normalize_resort_name x) = normalize_resort_name x := by
  have h1' : step1 (normalizeL x.data) = normalizeL x.data := h1
  have h2' : step2 (normalizeL x.data) = normalizeL x.data := h2
  have h3' : step3 (normalizeL x.data) = normalizeL x.data := h3
  have h4' : step4run (normalizeL x.data) = normalizeL x.data := h4
  suffices hfix : normalizeL (normalizeL x.data) = normalizeL x.data by
    show String.mk (normalizeL (normalize_resort_name x).data) = normalize_resort_name x
    have : (normalize_resort_name x).data = normalizeL x.data := rfl
    rw [this, hfix]
    rfl
  obtain ⟨hA, hB, hC⟩ := normalizeL_canon x.data
  have hnd : ∀ c ∈ normalizeL x.data, isDash c = false := normalizeL_noDash x.data
  cases hse : (normalizeL x.data).isEmpty with
  | true =>
    have he : normalizeL x.data = [] := by
      rwa [List.isEmpty_iff] at hse
    rw [he]
    rfl
  | false =>
    rw [normalizeL_eq_of_ne _ hse, h1', h2', h3', h4', step5run_fix _ hnd,
      hA, hB]
    exact hC

/-- C5 witness: a name carrying no strippable prefix, such as "Elara Grand",
normalizes idempotently. -/
theorem C5_witness :
    normalize_resort_name (normalize_resort_name "Elara Grand") =
      normalize_resort_name "Elara Grand" :=
  C5_amended_idempotent "Elara Grand" (by decide) (by decide) (by decide)
    (by decide)

theorem mem_apply_filters (df : List DFRow) (fs : Filters) (r : DFRow) :
    r ∈ apply_filters df fs ↔
      r ∈ df ∧ seasonKeep fs r = true ∧ usageKeep fs r = true ∧
      locationKeep fs r = true ∧ pointsKeep fs r = true ∧
      priceKeep fs r = true ∧ mfKeep fs r = true ∧ sourceKeep fs r = true := by
  unfold apply_filters seasonKeep usageKeep locationKeep pointsKeep priceKeep
    mfKeep sourceKeep
  by_cases hdf : df.isEmpty
  · rw [List.isEmpty_iff] at hdf
    subst hdf
    simp
  · by_cases hs : fs.season = "Platinum만" <;>
    by_cases hu1 : fs.usage = "Annual만" <;>
    by_cases hu2 : fs.usage = "EOY 포함" <;>
    by_cases hloc : fs.locations.isEmpty <;>
    by_cases hsrc : ((fs.sources.filter fun p => p.2).map Prod.fst).isEmpty <;>
    simp [hdf, hs, hu1, hu2, hloc, hsrc, List.mem_filter] <;>
    tauto

/-- C8: `apply_filters` retains every row whose value on a range-filtered
column (points, price, fee-per-point) is null, for every choice of that
filter's bounds: a row of the table that passes the non-range filters and
whose other two range stages pass is a member of the output no matter what
bounds the null column's filter is given — absence of data never causes
exclusion. -/
theorem C8_null_retention (df : List DFRow) (fs : Filters) (r : DFRow)
    (hdf : r ∈ df) (hs : seasonKeep fs r = true) (hu : usageKeep fs r = true)
    (hl : locationKeep fs r = true) (hsc : sourceKeep fs r = true) :
    (r.points = none → priceKeep fs r = true → mfKeep fs r = true →
      ∀ b : ℚ × ℚ, r ∈ apply_filters df {fs with points_range := b}) ∧
    (r.asking_price = none → pointsKeep fs r = true → mfKeep fs r = true →
      ∀ b : ℚ × ℚ, r ∈ apply_filters df {fs with price_range := b}) ∧
    (r.mf_per_point = none → pointsKeep fs r = true → priceKeep fs r = true →
      ∀ m : ℚ, r ∈ apply_filters df {fs with max_mf_per_point := m}) := by
  refine ⟨?_, ?_, ?_⟩
  · intro hnull hpr hmf b
    rw [mem_apply_filters]
    refine ⟨hdf, hs, hu, hl, ?_, hpr, hmf, hsc⟩
    simp [pointsKeep, hnull]
  · intro hnull hpt hmf b
    rw [mem_apply_filters]
    refine ⟨hdf, hs, hu, hl, hpt, ?_, hmf, hsc⟩
    simp [priceKeep, hnull]
  · intro hnull hpt hpr m
    rw [mem_apply_filters]
    refine ⟨hdf, hs, hu, hl, hpt, hpr, ?_, hsc⟩
    simp [mfKeep, hnull]

/-- C8 witness: a row with null points (and a priced listing within the
price bounds) is retained even under points bounds that exclude every
numeric value. -/
theorem C8_witness :
    (⟨none, some "Annual", none, "tug", none, some 100, none⟩ : DFRow) ∈
      apply_filters [⟨none, some "Annual", none, "tug", none, some 100, none⟩]
        ⟨"전체", "전체", [], (5000, 30000), (0, 20000), 1, [("tug", true)]⟩ :=
  (C8_null_retention [⟨none, some "Annual", none, "tug", none, some 100, none⟩]
    ⟨"전체", "전체", [], (0, 0), (0, 20000), 1, [("tug", true)]⟩
    ⟨none, some "Annual", none, "tug", none, some 100, none⟩
    (by decide) (by decide) (by decide) (by decide) (by decide)).1
    rfl (by decide) (by decide) (5000, 30000)

/-! ### Lemmas for the database claims -/

theorem updateFirst_length : ∀ (rows : List ListingRow) (p : ListingRow),
    (updateFirst rows p).length = rows.length
  | [], _ => rfl
  | r :: rs, p => by
    unfold updateFirst
    by_cases h : r.source_id = p.source_id
    · rw [if_pos h]
      simp
    · rw [if_neg h]
      simp [updateFirst_length rs p]

theorem updateFirst_map_sid : ∀ (rows : List ListingRow) (p : ListingRow),
    (updateFirst rows p).map (fun r => r.source_id) =
      rows.map (fun r => r.source_id)
  | [], _ => rfl
  | r :: rs, p => by
    unfold updateFirst
    by_cases h : r.source_id = p.source_id
    · rw [if_pos h]
      simp [h]
    · rw [if_neg h]
      simp [updateFirst_map_sid rs p]

theorem mem_updateFirst : ∀ (rows : List ListingRow) (p : ListingRow),
    (∃ r ∈ rows, r.source_id = p.source_id) → p ∈ updateFirst rows p
  | [], p, h => by simp at h
  | r :: rs, p, h => by
    unfold updateFirst
    by_cases hr : r.source_id = p.source_id
    · rw [if_pos hr]
      simp
    · rw [if_neg hr]
      rcases h with ⟨x, hx, hsid⟩
      rcases List.mem_cons.mp hx with rfl | hx'
      · exact absurd hsid hr
      · exact List.mem_cons_of_mem r (mem_updateFirst rs p ⟨x, hx', hsid⟩)

/-- C9: `source_id` uniquely determines a listing — upserting a payload
whose `source_id` already exists updates the existing record in place
(reporting is_new = false, same row count, unchanged source_id multiset, and
the payload's new field values are stored), while an unseen `source_id`
appends a new record and reports is_new = true. -/
theorem C9_upsert_unique (rows : List ListingRow) (p : ListingRow) :
    ((∃ r ∈ rows, r.source_id = p.source_id) →
      (upsert_listing rows p).2 = false ∧
      (upsert_listing rows p).1.length = rows.length ∧
      (upsert_listing rows p).1.map (fun r => r.source_id) =
        rows.map (fun r => r.source_id) ∧
      p ∈ (upsert_listing rows p).1) ∧
    ((¬ ∃ r ∈ rows, r.source_id = p.source_id) →
      (upsert_listing rows p).2 = true ∧
      (upsert_listing rows p).1 = rows ++ [p]) := by
  constructor
  · intro hex
    have hfind : (rows.find? fun r => r.source_id == p.source_id).isSome := by
      rw [List.find?_isSome]
      rcases hex with ⟨r, hr, hsid⟩
      exact ⟨r, hr, by simp [hsid]⟩
    unfold upsert_listing
    cases hf : rows.find? fun r => r.source_id == p.source_id with
    | none => rw [hf] at hfind; simp at hfind
    | some r0 =>
      exact ⟨rfl, updateFirst_length rows p, updateFirst_map_sid rows p,
        mem_updateFirst rows p hex⟩
  · intro hnex
    have hfind : (rows.find? fun r => r.source_id == p.source_id) = none := by
      rw [List.find?_eq_none]
      intro x hx
      simp only [beq_iff_eq]
      exact fun hsid => hnex ⟨x, hx, hsid⟩
    unfold upsert_listing
    rw [hfind]
    exact ⟨rfl, rfl⟩

/-- C9 witness: re-submitting source_id "tug_1" with a changed price updates
in place — count stays 1, no duplicate, is_new is false, new price stored. -/
theorem C9_witness :
    (upsert_listing [⟨"tug_1", "tug", some 1000, some 5000⟩]
      ⟨"tug_1", "tug", some 1200, some 5000⟩).2 = false ∧
    (upsert_listing [⟨"tug_1", "tug", some 1000, some 5000⟩]
      ⟨"tug_1", "tug", some 1200, some 5000⟩).1.length =
      [(⟨"tug_1", "tug", some 1000, some 5000⟩ : ListingRow)].length ∧
    (upsert_listing [⟨"tug_1", "tug", some 1000, some 5000⟩]
      ⟨"tug_1", "tug", some 1200, some 5000⟩).1.map (fun r => r.source_id) =
      [(⟨"tug_1", "tug", some 1000, some 5000⟩ : ListingRow)].map
        (fun r => r.source_id) ∧
    (⟨"tug_1", "tug", some 1200, some 5000⟩ : ListingRow) ∈
      (upsert_listing [⟨"tug_1", "tug", some 1000, some 5000⟩]
        ⟨"tug_1", "tug", some 1200, some 5000⟩).1 :=
  (C9_upsert_unique [⟨"tug_1", "tug", some 1000, some 5000⟩]
    ⟨"tug_1", "tug", some 1200, some 5000⟩).1
    ⟨⟨"tug_1", "tug", some 1000, some 5000⟩, by simp, rfl⟩

theorem updateLastLog_cons_cons (a b : LogRow) (ls : List LogRow)
    (f : LogRow → LogRow) :
    updateLastLog (a :: b :: ls) f = a :: updateLastLog (b :: ls) f := rfl

theorem updateLastLog_append : ∀ (logs : List LogRow) (x : LogRow)
    (f : LogRow → LogRow), updateLastLog (logs ++ [x]) f = logs ++ [f x]
  | [], _, _ => rfl
  | a :: rest, x, f => by
    show updateLastLog (a :: (rest ++ [x])) f = a :: (rest ++ [f x])
    cases hr : rest ++ [x] with
    | nil => simp at hr
    | cons b l' =>
      rw [updateLastLog_cons_cons, ← hr]
      rw [updateLastLog_append rest x f]

/-- C3 counterexample: a run over two scraped listings that raises while
processing the second finalizes the run log as failed with the message, but
`session.rollback()` also discards the first listing's uncommitted upsert —
the store ends with no listings, contradicting the claim that listings
upserted before the failure remain persisted. -/
theorem C3_counterexample :
    (run_scraping ⟨[], [], []⟩ "tug"
      (.run [⟨"tug_1", "tug", some 1000, some 5000⟩,
             ⟨"tug_2", "tug", some 2000, some 6000⟩]
        (some (1, "boom")))).1.listings = [] ∧
    (run_scraping ⟨[], [], []⟩ "tug"
      (.run [⟨"tug_1", "tug", some 1000, some 5000⟩,
             ⟨"tug_2", "tug", some 2000, some 6000⟩]
        (some (1, "boom")))).1.logs =
      [⟨"tug", 0, 0, 0, "failed", some "boom"⟩] ∧
    (run_scraping ⟨[], [], []⟩ "tug"
      (.run [⟨"tug_1", "tug", some 1000, some 5000⟩,
             ⟨"tug_2", "tug", some 2000, some 6000⟩]
        (some (1, "boom")))).2 = .err "boom" := by
  refine ⟨by decide, by decide, by decide⟩

/-- C3 amended: when the loop raises while processing the listing at index k
(after the earlier listings were upserted in the session), the run log is
still finalized with status failed and the exception message, but the
rollback discards the uncommitted upserts: the listings table is exactly as
before the run. -/
theorem C3_amended_rollback (db : DB) (source : String) (ls : List ListingRow)
    (k : Nat) (msg : String) (hk : k < ls.length) :
    (run_scraping db source (.run ls (some (k, msg)))).1.listings =
      db.listings ∧
    (run_scraping db source (.run ls (some (k, msg)))).1.mf_refs =
      db.mf_refs ∧
    (run_scraping db source (.run ls (some (k, msg)))).1.logs =
      db.logs ++ [⟨source, 0, 0, 0, "failed", some msg⟩] ∧
    (run_scraping db source (.run ls (some (k, msg)))).2 = .err msg := by
  have hrun : run_scraping db source (.run ls (some (k, msg))) =
      (complete_scrape_log (create_scrape_log db source) 0 0 0 "failed"
        (some msg), .err msg) := by
    simp only [run_scraping]
    rw [if_pos hk]
  rw [hrun]
  refine ⟨rfl, rfl, ?_, rfl⟩
  simp only [complete_scrape_log, create_scrape_log]
  rw [updateLastLog_append]

/-- C3 witness: a concrete failing run over one listing leaves the
pre-existing listing table untouched and appends a failed log entry. -/
theorem C3_witness :
    (run_scraping ⟨[⟨"tug_0", "tug", some 900, some 4000⟩], [], []⟩ "tug"
      (.run [⟨"tug_1", "tug", some 1000, some 5000⟩]
        (some (0, "parse error")))).1.listings =
      (⟨[⟨"tug_0", "tug", some 900, some 4000⟩], [], []⟩ : DB).listings ∧
    (run_scraping ⟨[⟨"tug_0", "tug", some 900, some 4000⟩], [], []⟩ "tug"
      (.run [⟨"tug_1", "tug", some 1000, some 5000⟩]
        (some (0, "parse error")))).1.mf_refs =
      (⟨[⟨"tug_0", "tug", some 900, some 4000⟩], [], []⟩ : DB).mf_refs ∧
    (run_scraping ⟨[⟨"tug_0", "tug", some 900, some 4000⟩], [], []⟩ "tug"
      (.run [⟨"tug_1", "tug", some 1000, some 5000⟩]
        (some (0, "parse error")))).1.logs =
      (⟨[⟨"tug_0", "tug", some 900, some 4000⟩], [], []⟩ : DB).logs ++
        [⟨"tug", 0, 0, 0, "failed", some "parse error"⟩] ∧
    (run_scraping ⟨[⟨"tug_0", "tug", some 900, some 4000⟩], [], []⟩ "tug"
      (.run [⟨"tug_1", "tug", some 1000, some 5000⟩]
        (some (0, "parse error")))).2 = .err "parse error" :=
  C3_amended_rollback ⟨[⟨"tug_0", "tug", some 900, some 4000⟩], [], []⟩ "tug"
    [⟨"tug_1", "tug", some 1000, some 5000⟩] 0 "parse error" (by decide)

theorem pyGtZero_error_ne (c : Cell) (m : String) (h : pyGtZero c = .error m) :
    m ≠ "" := by
  cases c with
  | num q => simp [pyGtZero] at h
  | text s =>
    injection h with h'
    subst h'
    decide
  | null =>
    injection h with h'
    subst h'
    decide

theorem pyDivCell_error_ne (a b : Cell) (m : String)
    (h : pyDivCell a b = .error m) : m ≠ "" := by
  cases a with
  | num qa =>
    cases b with
    | num qb =>
      simp only [pyDivCell] at h
      split at h
      · injection h with h'
        subst h'
        decide
      · exact absurd h (by simp)
    | text s =>
      injection h with h'
      subst h'
      decide
    | null =>
      injection h with h'
      subst h'
      decide
  | text s =>
    cases b <;> (injection h with h'; subst h'; decide)
  | null =>
    cases b <;> (injection h with h'; subst h'; decide)

theorem pyFloat_error_ne (c : Cell) (m : String) (h : pyFloat c = .error m) :
    m ≠ "" := by
  cases c with
  | num q => simp [pyFloat] at h
  | text s => injection h with h'; subst h'; decide
  | null => injection h with h'; subst h'; decide

theorem pyInt_error_ne (c : Cell) (m : String) (h : pyInt c = .error m) :
    m ≠ "" := by
  cases c with
  | num q => simp [pyInt] at h
  | text s => injection h with h'; subst h'; decide
  | null => injection h with h'; subst h'; decide

theorem processCells_error_ne (rn pts amf yr ut se : Cell) (m : String)
    (h : processCells rn pts amf yr ut se = .error m) : m ≠ "" := by
  unfold processCells at h
  split at h
  · exact absurd h (by simp)
  · split at h
    · rename_i e heq
      injection h with h'
      subst h'
      exact pyGtZero_error_ne _ _ heq
    · split at h
      · rename_i e heq
        injection h with h'
        subst h'
        split at heq
        · exact pyDivCell_error_ne _ _ _ heq
        · exact absurd heq (by simp)
      · split at h
        · split at h
          · rename_i e heq
            injection h with h'
            subst h'
            split at heq
            · exact pyInt_error_ne _ _ heq
            · exact absurd heq (by simp)
          · split at h
            · rename_i e heq
              injection h with h'
              subst h'
              exact pyFloat_error_ne _ _ heq
            · split at h
              · rename_i e heq
                injection h with h'
                subst h'
                exact pyInt_error_ne _ _ heq
              · exact absurd h (by simp)
        · injection h with h'
          subst h'
          decide
        · injection h with h'
          subst h'
          decide

theorem processRow_error_ne (r : CsvRow) (m : String)
    (h : processRow r = .error m) : m ≠ "" :=
  processCells_error_ne _ _ _ _ _ _ m h

theorem importGo_error_ne : ∀ (rows : List CsvRow) (acc : List MFRow)
    (c : Nat) (m : String), importGo rows acc c = .error m → m ≠ ""
  | [], acc, c, m, h => by simp [importGo] at h
  | r :: rs, acc, c, m, h => by
    unfold importGo at h
    cases hp : processRow r with
    | error e =>
      rw [hp] at h
      injection h with h'
      subst h'
      exact processRow_error_ne r _ hp
    | ok o =>
      rw [hp] at h
      cases o with
      | none => exact importGo_error_ne rs acc c m h
      | some mm => exact importGo_error_ne rs (acc ++ [mm]) (c + 1) m h

/-- C4 counterexample: an import over a valid row followed by a malformed
row (non-numeric annual_mf with positive points) fails; the store — and in
particular the reference table — is unchanged, the error is returned with a
non-empty message, but no run-log entry of any kind is recorded: the log
table stays empty, contradicting the claim that a run-log failure entry is
recorded for the failed import. -/
theorem C4_counterexample :
    (import_mf_csv
      ⟨[], [⟨"Old Resort", "old resort", Cell.null, Cell.text "Platinum",
        1000, 500, 0, 2024, "manual"⟩], []⟩
      [⟨some (.text "Elara"), none, none, some (.num 13440),
        some (.num 1331), some (.num 2025)⟩,
       ⟨some (.text "Kings Land"), none, none, some (.num 5),
        some (.text "abc"), none⟩]).1 =
      ⟨[], [⟨"Old Resort", "old resort", Cell.null, Cell.text "Platinum",
        1000, 500, 0, 2024, "manual"⟩], []⟩ ∧
    (import_mf_csv
      ⟨[], [⟨"Old Resort", "old resort", Cell.null, Cell.text "Platinum",
        1000, 500, 0, 2024, "manual"⟩], []⟩
      [⟨some (.text "Elara"), none, none, some (.num 13440),
        some (.num 1331), some (.num 2025)⟩,
       ⟨some (.text "Kings Land"), none, none, some (.num 5),
        some (.text "abc"), none⟩]).1.logs = [] ∧
    (import_mf_csv
      ⟨[], [⟨"Old Resort", "old resort", Cell.null, Cell.text "Platinum",
        1000, 500, 0, 2024, "manual"⟩], []⟩
      [⟨some (.text "Elara"), none, none, some (.num 13440),
        some (.num 1331), some (.num 2025)⟩,
       ⟨some (.text "Kings Land"), none, none, some (.num 5),
        some (.text "abc"), none⟩]).2 =
      .error "TypeError: unsupported operand types for division" := by
  refine ⟨by decide, by decide, by rfl⟩

/-- C4 amended: the import is atomic — a failed import leaves the whole
store (in particular the reference table) exactly as it was and returns a
non-empty error message in the result dictionary; no run-log entry is
written by imports (the log table is unchanged in all cases, including
success). -/
theorem C4_amended_import (db : DB) (rows : List CsvRow) :
    (∀ m, (import_mf_csv db rows).2 = .error m →
      (import_mf_csv db rows).1 = db ∧ m ≠ "") ∧
    (import_mf_csv db rows).1.logs = db.logs ∧
    (import_mf_csv db rows).1.listings = db.listings := by
  unfold import_mf_csv
  cases hi : importGo rows [] 0 with
  | error e =>
    refine ⟨?_, rfl, rfl⟩
    intro m hm
    injection hm with h'
    subst h'
    exact ⟨rfl, importGo_error_ne rows [] 0 _ hi⟩
  | ok res =>
    refine ⟨?_, rfl, rfl⟩
    intro m hm
    exact absurd hm (by simp)

/-- C4 witness: a failing one-row import leaves a store with a completed
scrape log and empty reference table untouched, with a non-empty error. -/
theorem C4_witness :
    (import_mf_csv ⟨[], [], [⟨"tug", 3, 2, 1, "completed", none⟩]⟩
      [⟨some (.text "Bay Club"), none, none, some (.num 7),
        some (.text "n/a"), none⟩]).1 =
      ⟨[], [], [⟨"tug", 3, 2, 1, "completed", none⟩]⟩ ∧
    "TypeError: unsupported operand types for division" ≠ "" :=
  (C4_amended_import ⟨[], [], [⟨"tug", 3, 2, 1, "completed", none⟩]⟩
    [⟨some (.text "Bay Club"), none, none, some (.num 7),
      some (.text "n/a"), none⟩]).1
    "TypeError: unsupported operand types for division" (by rfl)
